import Mathlib

/-!
Verification development for a 2D broad-phase collision-detection library.

The library consists of:
* an AABB overlap predicate (`src/aabb.ts`, `aabbIntersects`),
* a brute-force detector (`src/brute-force.ts`, `BruteForceBroadPhase`),
* a uniform-grid detector (`src/spatial-grid.ts`, `SpatialGridBroadPhase`).

Modelling conventions:
* JavaScript numbers are modelled as exact rationals (`ℚ`); `Math.floor` and
  `Math.ceil` become `Int.floor` / `Int.ceil`.
* Entity ids (`number | string` in the source) are modelled by their string
  form (`String`), since the only operations performed on ids are equality
  and interpolation into the dedup-cache keys `` `${a.id}:${b.id}` ``.  A
  numeric id stringifies to a decimal numeral, which never contains the
  separator character.
* The mutable detector objects become records; methods take the record and
  return results together with the updated record.
* Thrown construction errors become `Except String`, carrying the exact
  message string of the corresponding `throw new Error(...)` site.
-/

/-- A 2D point, as used for the `min`/`max` corners of an AABB. -/
structure Vec2 where
  x : ℚ
  y : ℚ
deriving DecidableEq

/-- Axis-aligned bounding box (`src/types.ts`): minimum and maximum corners. -/
structure AABB where
  min : Vec2
  max : Vec2
deriving DecidableEq

/-- Entity (`src/types.ts`): an id plus an AABB.  The id is the string form
of the source's `number | string` id. -/
structure Entity where
  id : String
  aabb : AABB
deriving DecidableEq

/-- `aabbIntersects` from `src/aabb.ts`: separated on the X axis, or on the
Y axis, means no intersection; otherwise the boxes intersect. -/
def aabbIntersects (a b : AABB) : Bool :=
  if a.max.x < b.min.x ∨ b.max.x < a.min.x then
    false
  else if a.max.y < b.min.y ∨ b.max.y < a.min.y then
    false
  else
    true

/-- The strict-separation condition under which `aabbIntersects` reports no
intersection (the four disjuncts of the two `if` tests in `src/aabb.ts`). -/
def aabbSeparated (a b : AABB) : Prop :=
  a.max.x < b.min.x ∨ b.max.x < a.min.x ∨ a.max.y < b.min.y ∨ b.max.y < a.min.y

/-- `BruteForceBroadPhase` (`src/brute-force.ts`): the private fields
`_entities` and `_collisionTests`. -/
structure BruteForceBroadPhase where
  _entities : List Entity
  _collisionTests : ℕ

/-- `new BruteForceBroadPhase()`: both fields start empty/zero. -/
def BruteForceBroadPhase.new : BruteForceBroadPhase :=
  { _entities := [], _collisionTests := 0 }

/-- `BruteForceBroadPhase.update`: store (a copy of) the snapshot. -/
def BruteForceBroadPhase.update (bp : BruteForceBroadPhase) (entities : List Entity) :
    BruteForceBroadPhase :=
  { bp with _entities := entities }

/-- The inner `j` loop of `BruteForceBroadPhase.queryPairs`: entity `a` is
tested against each later entity in order; every iteration increments the
test counter, and intersecting pairs are pushed.  Returns the pairs pushed
and the number of counter increments. -/
def bruteInnerLoop (a : Entity) : List Entity → List (Entity × Entity) × ℕ
  | [] => ([], 0)
  | b :: bs =>
    let rest := bruteInnerLoop a bs
    ((if aabbIntersects a.aabb b.aabb then [(a, b)] else []) ++ rest.1, rest.2 + 1)

/-- The outer `i` loop of `BruteForceBroadPhase.queryPairs`. -/
def bruteOuterLoop : List Entity → List (Entity × Entity) × ℕ
  | [] => ([], 0)
  | a :: rest =>
    let inner := bruteInnerLoop a rest
    let outer := bruteOuterLoop rest
    (inner.1 ++ outer.1, inner.2 + outer.2)

/-- `BruteForceBroadPhase.queryPairs`: reset the counter, run the nested
loops, return the pairs; the counter records the tests of this call. -/
def BruteForceBroadPhase.queryPairs (bp : BruteForceBroadPhase) :
    List (Entity × Entity) × BruteForceBroadPhase :=
  let r := bruteOuterLoop bp._entities
  (r.1, { bp with _collisionTests := r.2 })

/-- All ordered pairs `(l[i], l[j])` with `i < j`, in loop order.  Both the
brute-force inner/outer loops and the within-cell pair loop of the grid
detector enumerate exactly these pairs. -/
def pairsWithin : List Entity → List (Entity × Entity)
  | [] => []
  | a :: rest => rest.map (fun b => (a, b)) ++ pairsWithin rest

/-- `SpatialGridOptions` from `src/spatial-grid.ts`; `minX`/`minY` are
optional and default to 0 (`options.minX ?? 0`). -/
structure SpatialGridOptions where
  cellSize : ℚ
  minX : Option ℚ
  minY : Option ℚ
  maxX : ℚ
  maxY : ℚ

/-- The state of a `SpatialGridBroadPhase` object: the readonly
configuration fields, the grid dimensions computed at construction, the
cell contents `grid[col][row]`, and the test counter.  The jagged
`grid[col][row]` array is modelled as a function from cell coordinates to
the list of entities pushed into that cell, in push order. -/
structure SpatialGridBroadPhase where
  cellSize : ℚ
  minX : ℚ
  minY : ℚ
  maxX : ℚ
  maxY : ℚ
  numCols : ℤ
  numRows : ℤ
  grid : ℤ × ℤ → List Entity
  _collisionTests : ℕ

/-- The field assignments of the `SpatialGridBroadPhase` constructor, after
validation has passed: store the configuration, compute
`numCols = Math.ceil((maxX - minX) / cellSize)` and likewise `numRows`,
and initialize every grid cell to an empty list. -/
def SpatialGridBroadPhase.init (o : SpatialGridOptions) : SpatialGridBroadPhase :=
  { cellSize := o.cellSize
    minX := o.minX.getD 0
    minY := o.minY.getD 0
    maxX := o.maxX
    maxY := o.maxY
    numCols := ⌈(o.maxX - o.minX.getD 0) / o.cellSize⌉
    numRows := ⌈(o.maxY - o.minY.getD 0) / o.cellSize⌉
    grid := fun _ => []
    _collisionTests := 0 }

/-- The `SpatialGridBroadPhase` constructor: the three validation checks in
source order (each `throw new Error(...)` becomes `Except.error` with the
same message), then the field assignments.  The spec's error taxonomy names
the first message `InvalidCellSize` and the other two `InvalidBounds`. -/
def SpatialGridBroadPhase.create (o : SpatialGridOptions) :
    Except String SpatialGridBroadPhase :=
  if o.cellSize ≤ 0 then
    .error ("cellSize must be greater than 0")
  else if o.maxX ≤ o.minX.getD 0 then
    .error ("maxX must be greater than minX")
  else if o.maxY ≤ o.minY.getD 0 then
    .error ("maxY must be greater than minY")
  else
    .ok (SpatialGridBroadPhase.init o)

/-- The column computed by `SpatialGridBroadPhase.worldToGrid`:
`Math.floor((x - minX) / cellSize)` clamped to `[0, numCols - 1]` by
`Math.max(0, Math.min(col, numCols - 1))`. -/
def SpatialGridBroadPhase.colOf (g : SpatialGridBroadPhase) (x : ℚ) : ℤ :=
  max 0 (min ⌊(x - g.minX) / g.cellSize⌋ (g.numCols - 1))

/-- The row computed by `SpatialGridBroadPhase.worldToGrid`, clamped to
`[0, numRows - 1]`. -/
def SpatialGridBroadPhase.rowOf (g : SpatialGridBroadPhase) (y : ℚ) : ℤ :=
  max 0 (min ⌊(y - g.minY) / g.cellSize⌋ (g.numRows - 1))

/-- `SpatialGridBroadPhase.worldToGrid`: world coordinates to clamped grid
cell coordinates `{ col, row }`. -/
def SpatialGridBroadPhase.worldToGrid (g : SpatialGridBroadPhase) (x y : ℚ) : ℤ × ℤ :=
  (g.colOf x, g.rowOf y)

/-- Whether cell `c` lies in the inclusive rectangle of cells
`worldToGrid(aabb.min) .. worldToGrid(aabb.max)` that `update` inserts
entity `e` into (the two nested `for col in [minCell.col, maxCell.col]`,
`for row in [minCell.row, maxCell.row]` loops). -/
def SpatialGridBroadPhase.entityCoversCell (g : SpatialGridBroadPhase) (e : Entity)
    (c : ℤ × ℤ) : Bool :=
  let minCell := g.worldToGrid e.aabb.min.x e.aabb.min.y
  let maxCell := g.worldToGrid e.aabb.max.x e.aabb.max.y
  decide (minCell.1 ≤ c.1) && decide (c.1 ≤ maxCell.1) &&
    decide (minCell.2 ≤ c.2) && decide (c.2 ≤ maxCell.2)

/-- `SpatialGridBroadPhase.update`: clear every cell, then push each entity,
in snapshot order, into every cell of the inclusive rectangle its AABB
covers. -/
def SpatialGridBroadPhase.update (g : SpatialGridBroadPhase) (entities : List Entity) :
    SpatialGridBroadPhase :=
  { g with
    grid := entities.foldl
      (fun acc e => fun c => if g.entityCoversCell e c then acc c ++ [e] else acc c)
      (fun _ => []) }

/-- The cell iteration order of `SpatialGridBroadPhase.queryPairs`: column
major, `col` from 0 to `numCols - 1`, `row` from 0 to `numRows - 1`. -/
def SpatialGridBroadPhase.gridCells (g : SpatialGridBroadPhase) : List (ℤ × ℤ) :=
  (List.range g.numCols.toNat).flatMap
    (fun col => (List.range g.numRows.toNat).map (fun row => (Int.ofNat col, Int.ofNat row)))

/-- The dedup-cache key `` `${a.id}:${b.id}` `` built by `queryPairs`. -/
def pairKey (a b : Entity) : String :=
  a.id ++ ":" ++ b.id

/-- The sequence of within-cell ordered pairs visited by the triple loop of
`SpatialGridBroadPhase.queryPairs` (each cell in grid order, each `i < j`
pair inside the cell).  The source's `continue` for cells with fewer than
two entities skips no pair, since such cells contribute no `i < j` pair. -/
def SpatialGridBroadPhase.cellPairSeq (g : SpatialGridBroadPhase) :
    List (Entity × Entity) :=
  g.gridCells.flatMap (fun c => pairsWithin (g.grid c))

/-- The per-pair body of `SpatialGridBroadPhase.queryPairs`, processing the
visited pairs in order while threading the `checked` cache: a pair whose
key (in either order) is already cached is skipped; otherwise both key
orders are cached, the test counter is incremented, and the pair is pushed
if the AABBs intersect.  Returns the pairs pushed and the final counter. -/
def gridQueryLoop : List (Entity × Entity) → List String → List (Entity × Entity) × ℕ
  | [], _ => ([], 0)
  | p :: rest, checked =>
    if checked.contains (pairKey p.1 p.2) ∨ checked.contains (pairKey p.2 p.1) then
      gridQueryLoop rest checked
    else
      let r := gridQueryLoop rest (pairKey p.1 p.2 :: pairKey p.2 p.1 :: checked)
      ((if aabbIntersects p.1.aabb p.2.aabb then [p] else []) ++ r.1, r.2 + 1)

/-- `SpatialGridBroadPhase.queryPairs`: reset the counter, start from an
empty `checked` cache, and run the cell/pair loops. -/
def SpatialGridBroadPhase.queryPairs (g : SpatialGridBroadPhase) :
    List (Entity × Entity) × SpatialGridBroadPhase :=
  let r := gridQueryLoop g.cellPairSeq []
  (r.1, { g with _collisionTests := r.2 })

/-- Whether the (ordered) pair `p` carries the unordered id pair `{i, j}`. -/
def sameIds (p : Entity × Entity) (i j : String) : Prop :=
  (p.1.id = i ∧ p.2.id = j) ∨ (p.1.id = j ∧ p.2.id = i)

/-- Whether two (ordered) pairs carry the same unordered id pair. -/
def sameIdPair (p q : Entity × Entity) : Prop :=
  (p.1.id = q.1.id ∧ p.2.id = q.2.id) ∨ (p.1.id = q.2.id ∧ p.2.id = q.1.id)

/-- An id that does not contain the separator character of the dedup-cache
keys.  Ids that come from numbers always satisfy this. -/
def sepFree (s : String) : Prop :=
  (':') ∉ s.data

/-- An AABB satisfying the data-model invariant `min ≤ max` on both axes
(spec §3; caller responsibility, not enforced by the core). -/
def wellFormed (box : AABB) : Prop :=
  box.min.x ≤ box.max.x ∧ box.min.y ≤ box.max.y

/-- Clamp as the spec words it (§4.4): `clamp(v, lo, hi)`, the value forced
into `[lo, hi]`.  Spec-side definition, for comparison with the code. -/
def specClamp (v lo hi : ℤ) : ℤ :=
  min (max v lo) hi

/-- The coordinate mapping exactly as §4.4 of the spec words it:
`toCell(x,y) = (clamp(floor((x-minX)/cellSize), 0, numCols-1),
clamp(floor((y-minY)/cellSize), 0, numRows-1))`.  Spec-side definition, for
comparison with the code's `worldToGrid`. -/
def specToCell (cellSize minX minY : ℚ) (numCols numRows : ℤ) (x y : ℚ) : ℤ × ℤ :=
  (specClamp ⌊(x - minX) / cellSize⌋ 0 (numCols - 1),
   specClamp ⌊(y - minY) / cellSize⌋ 0 (numRows - 1))

/-- A small valid grid configuration (cellSize 1 over the unit square),
used to instantiate hypotheses at concrete inputs. -/
def gOptions : SpatialGridOptions :=
  { cellSize := 1, minX := none, minY := none, maxX := 1, maxY := 1 }

/-- A degenerate box at the origin; it lies in grid cell (0, 0) of
`gOptions` and intersects itself. -/
def ceBox : AABB :=
  { min := { x := 0, y := 0 }, max := { x := 0, y := 0 } }

/-- First of four mutually intersecting entities with pairwise distinct
string ids whose dedup keys collide. -/
def ce1 : Entity :=
  { id := ("1"), aabb := ceBox }

/-- Second entity of the colliding-key snapshot. -/
def ce2 : Entity :=
  { id := ("2:3"), aabb := ceBox }

/-- Third entity of the colliding-key snapshot; `pairKey ce3 ce4` equals
`pairKey ce1 ce2` (both are the string `1:2:3`). -/
def ce3 : Entity :=
  { id := ("1:2"), aabb := ceBox }

/-- Fourth entity of the colliding-key snapshot. -/
def ce4 : Entity :=
  { id := ("3"), aabb := ceBox }

/-- Four mutually intersecting entities with pairwise distinct string ids
whose dedup keys collide: `pairKey ce1 ce2` and `pairKey ce3 ce4` are both
the string `1:2:3`. -/
def ceEntities : List Entity :=
  [ce1, ce2, ce3, ce4]

instance instDecidableSameIds (p : Entity × Entity) (i j : String) :
    Decidable (sameIds p i j) :=
  inferInstanceAs (Decidable ((p.1.id = i ∧ p.2.id = j) ∨ (p.1.id = j ∧ p.2.id = i)))

instance instDecidableSameIdPair (p q : Entity × Entity) : Decidable (sameIdPair p q) :=
  inferInstanceAs
    (Decidable ((p.1.id = q.1.id ∧ p.2.id = q.2.id) ∨ (p.1.id = q.2.id ∧ p.2.id = q.1.id)))

instance instDecidableSepFree (s : String) : Decidable (sepFree s) :=
  inferInstanceAs (Decidable ((':') ∉ s.data))

/-- Two overlapping well-formed entities with separator-free ids, used as a
concrete snapshot for witnesses. -/
def wEntities : List Entity :=
  [{ id := ("1"), aabb := { min := { x := 0, y := 0 }, max := { x := 1, y := 1 } } },
   { id := ("2"), aabb := { min := { x := 1, y := 1 }, max := { x := 1, y := 1 } } }]

/-!  Helper lemmas. -/

theorem aabbIntersects_eq_false_iff (a b : AABB) :
    aabbIntersects a b = false ↔ aabbSeparated a b := by
  unfold aabbIntersects aabbSeparated
  split_ifs with h1 h2
  · simp only [eq_self_iff_true, true_iff]
    rcases h1 with h | h
    · exact Or.inl h
    · exact Or.inr (Or.inl h)
  · simp only [eq_self_iff_true, true_iff]
    rcases h2 with h | h
    · exact Or.inr (Or.inr (Or.inl h))
    · exact Or.inr (Or.inr (Or.inr h))
  · simp only [Bool.true_eq_false, false_iff]
    push_neg at h1 h2 ⊢
    exact ⟨h1.1, h1.2, h2.1, h2.2⟩

theorem aabbIntersects_eq_true_iff (a b : AABB) :
    aabbIntersects a b = true ↔ ¬ aabbSeparated a b := by
  rw [← aabbIntersects_eq_false_iff]
  cases aabbIntersects a b <;> simp

theorem aabbSeparated_comm (a b : AABB) : aabbSeparated a b ↔ aabbSeparated b a := by
  unfold aabbSeparated
  tauto

theorem aabbIntersects_comm_lemma (a b : AABB) :
    aabbIntersects a b = aabbIntersects b a := by
  cases hb : aabbIntersects b a
  · rw [aabbIntersects_eq_false_iff, aabbSeparated_comm, ← aabbIntersects_eq_false_iff, hb]
  · rw [aabbIntersects_eq_true_iff, aabbSeparated_comm, ← aabbIntersects_eq_true_iff, hb]

theorem bruteInnerLoop_fst (a : Entity) (bs : List Entity) :
    (bruteInnerLoop a bs).1 =
      (bs.map (fun b => (a, b))).filter (fun p => aabbIntersects p.1.aabb p.2.aabb) := by
  induction bs with
  | nil => rfl
  | cons b bs ih =>
    simp only [bruteInnerLoop, List.map_cons, List.filter_cons, ih]
    split <;> simp_all

theorem bruteOuterLoop_fst (es : List Entity) :
    (bruteOuterLoop es).1 =
      (pairsWithin es).filter (fun p => aabbIntersects p.1.aabb p.2.aabb) := by
  induction es with
  | nil => rfl
  | cons a rest ih =>
    simp only [bruteOuterLoop, pairsWithin, List.filter_append, ih, bruteInnerLoop_fst]

theorem bruteInnerLoop_snd (a : Entity) (bs : List Entity) :
    (bruteInnerLoop a bs).2 = bs.length := by
  induction bs with
  | nil => rfl
  | cons b bs ih => simp [bruteInnerLoop, ih]

theorem bruteOuterLoop_snd (es : List Entity) :
    2 * (bruteOuterLoop es).2 = es.length * (es.length - 1) := by
  induction es with
  | nil => rfl
  | cons a rest ih =>
    simp only [bruteOuterLoop, bruteInnerLoop_snd, List.length_cons, Nat.add_sub_cancel]
    rw [Nat.mul_add, ih]
    cases rest.length with
    | zero => rfl
    | succ m =>
      simp only [Nat.succ_sub_one]
      ring

theorem mem_pairsWithin {x y : Entity} {l : List Entity} :
    (x, y) ∈ pairsWithin l ↔ List.Sublist [x, y] l := by
  induction l with
  | nil => simp [pairsWithin]
  | cons a rest ih =>
    simp only [pairsWithin, List.mem_append, List.mem_map, Prod.mk.injEq, ih,
      List.sublist_cons_iff]
    constructor
    · rintro (⟨b, hb, ha, hby⟩ | h)
      · refine Or.inr ⟨[y], by rw [ha], ?_⟩
        exact List.singleton_sublist.mpr (hby ▸ hb)
      · exact Or.inl h
    · rintro (h | ⟨r, hr, hsub⟩)
      · exact Or.inr h
      · injection hr with h1 h2
        subst h1
        rw [← h2] at hsub
        exact Or.inl ⟨y, List.singleton_sublist.mp hsub, rfl, rfl⟩

theorem mem_pairsWithin_parts {x y : Entity} {l : List Entity}
    (h : (x, y) ∈ pairsWithin l) : x ∈ l ∧ y ∈ l := by
  have hs := mem_pairsWithin.mp h
  exact ⟨hs.mem (by simp), hs.mem (by simp)⟩

theorem sublist_pair_filter_iff {x y : Entity} {l : List Entity} {p : Entity → Bool} :
    List.Sublist [x, y] (l.filter p) ↔
      List.Sublist [x, y] l ∧ p x = true ∧ p y = true := by
  constructor
  · intro h
    refine ⟨h.trans (List.filter_sublist l), ?_, ?_⟩
    · exact (List.mem_filter.mp (h.mem (by simp))).2
    · exact (List.mem_filter.mp (h.mem (by simp))).2
  · rintro ⟨hsub, hx, hy⟩
    have h2 := hsub.filter p
    simpa [List.filter_cons, hx, hy] using h2

theorem pairsWithin_pairwise {l : List Entity} (h : (l.map Entity.id).Nodup) :
    (pairsWithin l).Pairwise (fun p q => ¬ sameIdPair p q) := by
  induction l with
  | nil => simp [pairsWithin]
  | cons a rest ih =>
    rw [List.map_cons, List.nodup_cons] at h
    obtain ⟨hna, hrest⟩ := h
    have hna2 : ∀ e ∈ rest, e.id ≠ a.id := by
      intro e he heq
      exact hna (heq ▸ List.mem_map_of_mem Entity.id he)
    rw [pairsWithin, List.pairwise_append]
    refine ⟨?_, ih hrest, ?_⟩
    · rw [List.pairwise_map]
      have hp : rest.Pairwise (fun e f => e.id ≠ f.id) := by
        rw [← List.pairwise_map (f := Entity.id)]
        exact hrest
      refine hp.imp_of_mem ?_
      intro e f he hf hef hsame
      rcases hsame with ⟨_, h2⟩ | ⟨h1, _⟩
      · exact hef h2
      · exact hna2 f hf h1.symm
    · intro p hp q hq hsame
      obtain ⟨b, hb, rfl⟩ := List.mem_map.mp hp
      have hq1 : q.1 ∈ rest ∧ q.2 ∈ rest := by
        obtain ⟨q1, q2⟩ := q
        exact mem_pairsWithin_parts hq
      rcases hsame with ⟨h1, _⟩ | ⟨h1, _⟩
      · exact hna2 q.1 hq1.1 h1.symm
      · exact hna2 q.2 hq1.2 h1.symm

theorem append_sep_inj {xs ys us vs : List Char} (hx : (':') ∉ xs) (hu : (':') ∉ us)
    (h : xs ++ (':') :: ys = us ++ (':') :: vs) : xs = us ∧ ys = vs := by
  induction xs generalizing us with
  | nil =>
    cases us with
    | nil => simpa using h
    | cons u us2 =>
      injection h with h1 h2
      exact absurd (h1 ▸ List.mem_cons_self u us2) hu
  | cons x xs2 ih =>
    cases us with
    | nil =>
      injection h with h1 h2
      exact absurd (h1 ▸ List.mem_cons_self x xs2) hx
    | cons u us2 =>
      injection h with h1 h2
      have hx2 : (':') ∉ xs2 := fun hm => hx (List.mem_cons_of_mem x hm)
      have hu2 : (':') ∉ us2 := fun hm => hu (List.mem_cons_of_mem u hm)
      obtain ⟨hh1, hh2⟩ := ih hx2 hu2 h2
      exact ⟨by rw [h1, hh1], hh2⟩

theorem pairKey_inj {a b c d : Entity} (ha : sepFree a.id) (hb : sepFree b.id)
    (hc : sepFree c.id) (hd : sepFree d.id) (h : pairKey a b = pairKey c d) :
    a.id = c.id ∧ b.id = d.id := by
  unfold pairKey at h
  have hdata := congrArg String.data h
  simp only [String.data_append, List.append_assoc, List.singleton_append] at hdata
  obtain ⟨h1, h2⟩ := append_sep_inj ha hc hdata
  exact ⟨String.ext h1, String.ext h2⟩

theorem sameIdPair_pairKey_left {p q : Entity × Entity} (h : sameIdPair p q) :
    pairKey q.1 q.2 = pairKey p.1 p.2 ∨ pairKey q.1 q.2 = pairKey p.2 p.1 := by
  rcases h with ⟨h1, h2⟩ | ⟨h1, h2⟩
  · exact Or.inl (by unfold pairKey; rw [h1, h2])
  · exact Or.inr (by unfold pairKey; rw [h1, h2])

theorem gridQueryLoop_sound {L : List (Entity × Entity)} {c : List String}
    {p : Entity × Entity} (h : p ∈ (gridQueryLoop L c).1) :
    p ∈ L ∧ aabbIntersects p.1.aabb p.2.aabb = true := by
  induction L generalizing c with
  | nil => simp [gridQueryLoop] at h
  | cons hd rest ih =>
    rw [gridQueryLoop] at h
    split at h
    · obtain ⟨hm, hi⟩ := ih h
      exact ⟨List.mem_cons_of_mem hd hm, hi⟩
    · simp only [List.mem_append] at h
      rcases h with h | h
      · split at h
        · rw [List.mem_singleton] at h
          subst h
          exact ⟨List.mem_cons_self p rest, by assumption⟩
        · simp at h
      · obtain ⟨hm, hi⟩ := ih h
        exact ⟨List.mem_cons_of_mem hd hm, hi⟩

theorem gridQueryLoop_keys_not_cached {L : List (Entity × Entity)} {c : List String}
    {p : Entity × Entity} (h : p ∈ (gridQueryLoop L c).1) :
    pairKey p.1 p.2 ∉ c ∧ pairKey p.2 p.1 ∉ c := by
  induction L generalizing c with
  | nil => simp [gridQueryLoop] at h
  | cons hd rest ih =>
    rw [gridQueryLoop] at h
    split at h
    · exact ih h
    · rename_i hcond
      rw [not_or] at hcond
      obtain ⟨hc1, hc2⟩ := hcond
      have hm1 : pairKey hd.1 hd.2 ∉ c := by simpa using hc1
      have hm2 : pairKey hd.2 hd.1 ∉ c := by simpa using hc2
      simp only [List.mem_append] at h
      rcases h with h | h
      · split at h
        · rw [List.mem_singleton] at h
          subst h
          exact ⟨hm1, hm2⟩
        · simp at h
      · have h2 := ih h
        constructor
        · intro hmem
          exact h2.1 (List.mem_cons_of_mem _ (List.mem_cons_of_mem _ hmem))
        · intro hmem
          exact h2.2 (List.mem_cons_of_mem _ (List.mem_cons_of_mem _ hmem))

theorem gridQueryLoop_pairwise (L : List (Entity × Entity)) (c : List String) :
    (gridQueryLoop L c).1.Pairwise (fun p q => ¬ sameIdPair p q) := by
  induction L generalizing c with
  | nil => simp [gridQueryLoop]
  | cons hd rest ih =>
    rw [gridQueryLoop]
    split
    · exact ih c
    · rw [List.pairwise_append]
      refine ⟨?_, ih _, ?_⟩
      · split
        · simp
        · simp
      · intro p hp q hq hsame
        split at hp
        · rw [List.mem_singleton] at hp
          subst hp
          have hnc := gridQueryLoop_keys_not_cached hq
          rcases sameIdPair_pairKey_left hsame with hk | hk
          · refine hnc.1 ?_
            rw [hk]
            exact List.mem_cons_self _ _
          · refine hnc.1 ?_
            rw [hk]
            exact List.mem_cons_of_mem _ (List.mem_cons_self _ _)
        · simp at hp

theorem sameIdPair_refl (p : Entity × Entity) : sameIdPair p p :=
  Or.inl ⟨rfl, rfl⟩

theorem gridQueryLoop_complete {L : List (Entity × Entity)} {c : List String}
    {a b : Entity}
    (hsepL : ∀ p ∈ L, sepFree p.1.id ∧ sepFree p.2.id)
    (hsa : sepFree a.id) (hsb : sepFree b.id)
    (hres : ∀ p ∈ L,
      (p.1.id = a.id → p.1 = a) ∧ (p.2.id = a.id → p.2 = a) ∧
      (p.1.id = b.id → p.1 = b) ∧ (p.2.id = b.id → p.2 = b))
    (hmem : (a, b) ∈ L)
    (hint : aabbIntersects a.aabb b.aabb = true)
    (hc1 : pairKey a b ∉ c) (hc2 : pairKey b a ∉ c) :
    ∃ q ∈ (gridQueryLoop L c).1, sameIdPair q (a, b) := by
  induction L generalizing c with
  | nil => simp at hmem
  | cons hd rest ih =>
    rw [gridQueryLoop]
    split
    · rename_i hcond
      rcases List.mem_cons.mp hmem with heq | hmem2
      · exfalso
        rcases hcond with hk | hk
        · refine hc1 ?_
          have : pairKey hd.1 hd.2 ∈ c := by simpa using hk
          rw [← heq] at this
          exact this
        · refine hc2 ?_
          have : pairKey hd.2 hd.1 ∈ c := by simpa using hk
          rw [← heq] at this
          exact this
      · exact ih (fun p hp => hsepL p (List.mem_cons_of_mem hd hp))
          (fun p hp => hres p (List.mem_cons_of_mem hd hp)) hmem2 hc1 hc2
    · rename_i hcond
      by_cases hsame : sameIdPair hd (a, b)
      · -- the head pair carries the ids {a.id, b.id}; by id uniqueness it is
        -- (a, b) or (b, a), so it passes the intersection test and is emitted
        have hresh := hres hd (List.mem_cons_self hd rest)
        rcases hsame with ⟨h1, h2⟩ | ⟨h1, h2⟩
        · have he1 : hd.1 = a := hresh.1 h1
          have he2 : hd.2 = b := hresh.2.2.2 h2
          refine ⟨hd, ?_, ?_⟩
          · have hi : aabbIntersects hd.1.aabb hd.2.aabb = true := by
              rw [he1, he2]
              exact hint
            rw [if_pos hi]
            exact List.mem_append_left _ (List.mem_singleton.mpr rfl)
          · exact Or.inl ⟨by rw [he1], by rw [he2]⟩
        · have he1 : hd.1 = b := hresh.2.2.1 h1
          have he2 : hd.2 = a := hresh.2.1 h2
          refine ⟨hd, ?_, ?_⟩
          · have hi : aabbIntersects hd.1.aabb hd.2.aabb = true := by
              rw [he1, he2, aabbIntersects_comm_lemma]
              exact hint
            rw [if_pos hi]
            exact List.mem_append_left _ (List.mem_singleton.mpr rfl)
          · exact Or.inr ⟨by rw [he1], by rw [he2]⟩
      · -- the head pair carries different ids: neither of its cache keys is a
        -- key of (a, b), so the recursive call still finds a representative
        have hmem2 : (a, b) ∈ rest := by
          rcases List.mem_cons.mp hmem with heq | hmem2
          · exact absurd (heq ▸ sameIdPair_refl hd) hsame
          · exact hmem2
        have hsh := hsepL hd (List.mem_cons_self hd rest)
        have hk1 : pairKey a b ≠ pairKey hd.1 hd.2 := by
          intro hk
          obtain ⟨hia, hib⟩ := pairKey_inj hsa hsb hsh.1 hsh.2 hk
          exact hsame (Or.inl ⟨hia.symm, hib.symm⟩)
        have hk2 : pairKey a b ≠ pairKey hd.2 hd.1 := by
          intro hk
          obtain ⟨hia, hib⟩ := pairKey_inj hsa hsb hsh.2 hsh.1 hk
          exact hsame (Or.inr ⟨hib.symm, hia.symm⟩)
        have hk3 : pairKey b a ≠ pairKey hd.1 hd.2 := by
          intro hk
          obtain ⟨hib, hia⟩ := pairKey_inj hsb hsa hsh.1 hsh.2 hk
          exact hsame (Or.inr ⟨hib.symm, hia.symm⟩)
        have hk4 : pairKey b a ≠ pairKey hd.2 hd.1 := by
          intro hk
          obtain ⟨hib, hia⟩ := pairKey_inj hsb hsa hsh.2 hsh.1 hk
          exact hsame (Or.inl ⟨hia.symm, hib.symm⟩)
        have hc1n : pairKey a b ∉ pairKey hd.1 hd.2 :: pairKey hd.2 hd.1 :: c := by
          intro hmemk
          rcases List.mem_cons.mp hmemk with h | h
          · exact hk1 h
          · rcases List.mem_cons.mp h with h | h
            · exact hk2 h
            · exact hc1 h
        have hc2n : pairKey b a ∉ pairKey hd.1 hd.2 :: pairKey hd.2 hd.1 :: c := by
          intro hmemk
          rcases List.mem_cons.mp hmemk with h | h
          · exact hk3 h
          · rcases List.mem_cons.mp h with h | h
            · exact hk4 h
            · exact hc2 h
        obtain ⟨q, hq, hqs⟩ := ih (fun p hp => hsepL p (List.mem_cons_of_mem hd hp))
          (fun p hp => hres p (List.mem_cons_of_mem hd hp)) hmem2 hc1n hc2n
        exact ⟨q, List.mem_append_right _ hq, hqs⟩

theorem foldl_insert_grid (g : SpatialGridBroadPhase) (es : List Entity)
    (acc : ℤ × ℤ → List Entity) (c : ℤ × ℤ) :
    (es.foldl
      (fun acc2 e => fun c2 => if g.entityCoversCell e c2 then acc2 c2 ++ [e] else acc2 c2)
      acc) c
      = acc c ++ es.filter (fun e => g.entityCoversCell e c) := by
  induction es generalizing acc with
  | nil => simp
  | cons e rest ih =>
    rw [List.foldl_cons, ih, List.filter_cons]
    by_cases hcov : g.entityCoversCell e c
    · rw [if_pos hcov, if_pos hcov]
      simp
    · rw [if_neg hcov, if_neg hcov]

theorem update_grid_eq (g : SpatialGridBroadPhase) (es : List Entity) (c : ℤ × ℤ) :
    (g.update es).grid c = es.filter (fun e => g.entityCoversCell e c) := by
  have h : (g.update es).grid = es.foldl
      (fun acc2 e => fun c2 => if g.entityCoversCell e c2 then acc2 c2 ++ [e] else acc2 c2)
      (fun _ => []) := rfl
  rw [h, foldl_insert_grid]
  simp

theorem mem_gridCells {g : SpatialGridBroadPhase} {c : ℤ × ℤ} :
    c ∈ g.gridCells ↔ 0 ≤ c.1 ∧ c.1 < g.numCols ∧ 0 ≤ c.2 ∧ c.2 < g.numRows := by
  obtain ⟨c1, c2⟩ := c
  unfold SpatialGridBroadPhase.gridCells
  constructor
  · intro h
    obtain ⟨col, hcol, hc⟩ := List.mem_flatMap.mp h
    obtain ⟨row, hrow, heq⟩ := List.mem_map.mp hc
    rw [List.mem_range] at hcol hrow
    injection heq with h1 h2
    have h1n : (col : ℤ) = c1 := h1
    have h2n : (row : ℤ) = c2 := h2
    omega
  · rintro ⟨h1, h2, h3, h4⟩
    refine List.mem_flatMap.mpr ⟨c1.toNat, ?_, ?_⟩
    · rw [List.mem_range]
      omega
    · refine List.mem_map.mpr ⟨c2.toNat, ?_, ?_⟩
      · rw [List.mem_range]
        omega
      · show ((c1.toNat : ℤ), (c2.toNat : ℤ)) = (c1, c2)
        rw [Int.toNat_of_nonneg (show (0:ℤ) ≤ c1 from h1),
          Int.toNat_of_nonneg (show (0:ℤ) ≤ c2 from h3)]

theorem mem_cellPairSeq {g : SpatialGridBroadPhase} {p : Entity × Entity} :
    p ∈ g.cellPairSeq ↔ ∃ c ∈ g.gridCells, p ∈ pairsWithin (g.grid c) := by
  unfold SpatialGridBroadPhase.cellPairSeq
  exact List.mem_flatMap

theorem colOf_mono (g : SpatialGridBroadPhase) (hcs : 0 < g.cellSize) {x y : ℚ}
    (h : x ≤ y) : g.colOf x ≤ g.colOf y := by
  unfold SpatialGridBroadPhase.colOf
  have hf : ⌊(x - g.minX) / g.cellSize⌋ ≤ ⌊(y - g.minX) / g.cellSize⌋ :=
    Int.floor_le_floor ((div_le_div_right hcs).mpr (by linarith))
  exact max_le_max le_rfl (min_le_min hf le_rfl)

theorem rowOf_mono (g : SpatialGridBroadPhase) (hcs : 0 < g.cellSize) {x y : ℚ}
    (h : x ≤ y) : g.rowOf x ≤ g.rowOf y := by
  unfold SpatialGridBroadPhase.rowOf
  have hf : ⌊(x - g.minY) / g.cellSize⌋ ≤ ⌊(y - g.minY) / g.cellSize⌋ :=
    Int.floor_le_floor ((div_le_div_right hcs).mpr (by linarith))
  exact max_le_max le_rfl (min_le_min hf le_rfl)

theorem colOf_nonneg (g : SpatialGridBroadPhase) (x : ℚ) : 0 ≤ g.colOf x :=
  le_max_left 0 _

theorem rowOf_nonneg (g : SpatialGridBroadPhase) (y : ℚ) : 0 ≤ g.rowOf y :=
  le_max_left 0 _

theorem colOf_le (g : SpatialGridBroadPhase) (h : 0 ≤ g.numCols - 1) (x : ℚ) :
    g.colOf x ≤ g.numCols - 1 :=
  max_le h (min_le_right _ _)

theorem rowOf_le (g : SpatialGridBroadPhase) (h : 0 ≤ g.numRows - 1) (y : ℚ) :
    g.rowOf y ≤ g.numRows - 1 :=
  max_le h (min_le_right _ _)

theorem create_ok {o : SpatialGridOptions} {g : SpatialGridBroadPhase}
    (h : SpatialGridBroadPhase.create o = .ok g) :
    g = SpatialGridBroadPhase.init o ∧ 0 < o.cellSize ∧
      o.minX.getD 0 < o.maxX ∧ o.minY.getD 0 < o.maxY := by
  unfold SpatialGridBroadPhase.create at h
  split_ifs at h with h1 h2 h3
  push_neg at h1 h2 h3
  injection h with hg
  subst hg
  exact ⟨rfl, h1, h2, h3⟩

theorem init_numCols_pos {o : SpatialGridOptions} (hcs : 0 < o.cellSize)
    (hx : o.minX.getD 0 < o.maxX) : 1 ≤ (SpatialGridBroadPhase.init o).numCols := by
  have h : (0:ℤ) < ⌈(o.maxX - o.minX.getD 0) / o.cellSize⌉ :=
    Int.ceil_pos.mpr (div_pos (by linarith) hcs)
  show (1:ℤ) ≤ ⌈(o.maxX - o.minX.getD 0) / o.cellSize⌉
  omega

theorem init_numRows_pos {o : SpatialGridOptions} (hcs : 0 < o.cellSize)
    (hy : o.minY.getD 0 < o.maxY) : 1 ≤ (SpatialGridBroadPhase.init o).numRows := by
  have h : (0:ℤ) < ⌈(o.maxY - o.minY.getD 0) / o.cellSize⌉ :=
    Int.ceil_pos.mpr (div_pos (by linarith) hcs)
  show (1:ℤ) ≤ ⌈(o.maxY - o.minY.getD 0) / o.cellSize⌉
  omega

theorem entityCoversCell_iff {g : SpatialGridBroadPhase} {e : Entity} {c : ℤ × ℤ} :
    g.entityCoversCell e c = true ↔
      g.colOf e.aabb.min.x ≤ c.1 ∧ c.1 ≤ g.colOf e.aabb.max.x ∧
      g.rowOf e.aabb.min.y ≤ c.2 ∧ c.2 ≤ g.rowOf e.aabb.max.y := by
  unfold SpatialGridBroadPhase.entityCoversCell SpatialGridBroadPhase.worldToGrid
  simp [Bool.and_eq_true, decide_eq_true_eq, and_assoc]

theorem exists_shared_cell (g : SpatialGridBroadPhase) (hcs : 0 < g.cellSize)
    (hcols : 1 ≤ g.numCols) (hrows : 1 ≤ g.numRows)
    {a b : Entity} (hwa : wellFormed a.aabb) (hwb : wellFormed b.aabb)
    (hint : aabbIntersects a.aabb b.aabb = true) :
    ∃ c : ℤ × ℤ, g.entityCoversCell a c = true ∧ g.entityCoversCell b c = true ∧
      c ∈ g.gridCells := by
  have hns := (aabbIntersects_eq_true_iff a.aabb b.aabb).mp hint
  unfold aabbSeparated at hns
  push_neg at hns
  obtain ⟨h1, h2, h3, h4⟩ := hns
  refine ⟨(max (g.colOf a.aabb.min.x) (g.colOf b.aabb.min.x),
           max (g.rowOf a.aabb.min.y) (g.rowOf b.aabb.min.y)), ?_, ?_, ?_⟩
  · rw [entityCoversCell_iff]
    refine ⟨le_max_left _ _, ?_, le_max_left _ _, ?_⟩
    · exact max_le (colOf_mono g hcs hwa.1) (colOf_mono g hcs h1)
    · exact max_le (rowOf_mono g hcs hwa.2) (rowOf_mono g hcs h3)
  · rw [entityCoversCell_iff]
    refine ⟨le_max_right _ _, ?_, le_max_right _ _, ?_⟩
    · exact max_le (colOf_mono g hcs h2) (colOf_mono g hcs hwb.1)
    · exact max_le (rowOf_mono g hcs h4) (rowOf_mono g hcs hwb.2)
  · rw [mem_gridCells]
    have hc0 : 0 ≤ g.numCols - 1 := by omega
    have hr0 : 0 ≤ g.numRows - 1 := by omega
    have ha1 := colOf_nonneg g a.aabb.min.x
    have ha2 := colOf_le g hc0 a.aabb.min.x
    have hb2 := colOf_le g hc0 b.aabb.min.x
    have ha3 := rowOf_nonneg g a.aabb.min.y
    have ha4 := rowOf_le g hr0 a.aabb.min.y
    have hb4 := rowOf_le g hr0 b.aabb.min.y
    constructor
    · simp only [le_max_iff]
      exact Or.inl ha1
    refine ⟨?_, ?_, ?_⟩
    · simp only [max_lt_iff]
      omega
    · simp only [le_max_iff]
      exact Or.inl ha3
    · simp only [max_lt_iff]
      omega

theorem flatMap_const_nil {α β : Type} (l : List α) :
    (l.flatMap (fun _ => ([] : List β))) = [] := by
  induction l with
  | nil => rfl
  | cons a l ih =>
    rw [List.flatMap_cons, ih]
    rfl

theorem mem_brute_pairs {bp : BruteForceBroadPhase} {es : List Entity}
    {p : Entity × Entity} :
    p ∈ ((bp.update es).queryPairs).1 ↔
      List.Sublist [p.1, p.2] es ∧ aabbIntersects p.1.aabb p.2.aabb = true := by
  show p ∈ (bruteOuterLoop es).1 ↔ _
  rw [bruteOuterLoop_fst, List.mem_filter]
  obtain ⟨p1, p2⟩ := p
  rw [mem_pairsWithin]

theorem mem_cellPairSeq_parts {g : SpatialGridBroadPhase} {es : List Entity}
    {r : Entity × Entity} (hr : r ∈ (g.update es).cellPairSeq) :
    r.1 ∈ es ∧ r.2 ∈ es := by
  obtain ⟨c, hc, hpw⟩ := mem_cellPairSeq.mp hr
  obtain ⟨r1, r2⟩ := r
  have hparts := mem_pairsWithin_parts hpw
  rw [update_grid_eq] at hparts
  exact ⟨(List.mem_filter.mp hparts.1).1, (List.mem_filter.mp hparts.2).1⟩

theorem grid_pairs_subset {g : SpatialGridBroadPhase} {es : List Entity}
    {q : Entity × Entity} (hq : q ∈ ((g.update es).queryPairs).1) :
    List.Sublist [q.1, q.2] es ∧ aabbIntersects q.1.aabb q.2.aabb = true := by
  have hq2 : q ∈ (gridQueryLoop ((g.update es).cellPairSeq) []).1 := hq
  obtain ⟨hmem, hint⟩ := gridQueryLoop_sound hq2
  obtain ⟨c, hc, hpw⟩ := mem_cellPairSeq.mp hmem
  obtain ⟨q1, q2⟩ := q
  have hsub := mem_pairsWithin.mp hpw
  rw [update_grid_eq] at hsub
  obtain ⟨hsub2, -, -⟩ := sublist_pair_filter_iff.mp hsub
  exact ⟨hsub2, hint⟩

theorem brute_pairs_pairwise {es : List Entity} (huniq : (es.map Entity.id).Nodup) :
    (bruteOuterLoop es).1.Pairwise (fun p q => ¬ sameIdPair p q) := by
  rw [bruteOuterLoop_fst]
  exact (pairsWithin_pairwise huniq).sublist (List.filter_sublist _)

theorem gOptions_create :
    SpatialGridBroadPhase.create gOptions = .ok (SpatialGridBroadPhase.init gOptions) := by
  unfold SpatialGridBroadPhase.create
  rw [if_neg, if_neg, if_neg]
  · show ¬ ((1:ℚ) ≤ Option.getD none 0)
    norm_num
  · show ¬ ((1:ℚ) ≤ Option.getD none 0)
    norm_num
  · show ¬ ((1:ℚ) ≤ 0)
    norm_num

theorem gOptions_numCols : (SpatialGridBroadPhase.init gOptions).numCols = 1 := by
  show ⌈((1:ℚ) - Option.getD none 0) / (1:ℚ)⌉ = 1
  norm_num

theorem gOptions_numRows : (SpatialGridBroadPhase.init gOptions).numRows = 1 := by
  show ⌈((1:ℚ) - Option.getD none 0) / (1:ℚ)⌉ = 1
  norm_num

theorem gOptions_gridCells :
    (SpatialGridBroadPhase.init gOptions).gridCells = [((0:ℤ), (0:ℤ))] := by
  unfold SpatialGridBroadPhase.gridCells
  rw [gOptions_numCols, gOptions_numRows]
  rfl

theorem gOptions_coversCell (s : String) :
    (SpatialGridBroadPhase.init gOptions).entityCoversCell { id := s, aabb := ceBox }
      ((0:ℤ), (0:ℤ)) = true := by
  rw [entityCoversCell_iff]
  unfold SpatialGridBroadPhase.colOf SpatialGridBroadPhase.rowOf
  rw [gOptions_numCols, gOptions_numRows]
  show max 0 (min ⌊((0:ℚ) - Option.getD none 0) / (1:ℚ)⌋ (1 - 1)) ≤ 0 ∧ _
  norm_num

theorem ceGrid_gridContents :
    ((SpatialGridBroadPhase.init gOptions).update ceEntities).grid ((0:ℤ), (0:ℤ))
      = ceEntities := by
  rw [update_grid_eq]
  apply List.filter_eq_self.mpr
  intro e he
  have : e = ce1 ∨ e = ce2 ∨ e = ce3 ∨ e = ce4 := by
    simpa [ceEntities] using he
  rcases this with rfl | rfl | rfl | rfl
  · exact gOptions_coversCell ("1")
  · exact gOptions_coversCell ("2:3")
  · exact gOptions_coversCell ("1:2")
  · exact gOptions_coversCell ("3")

theorem ceGrid_cellPairSeq :
    ((SpatialGridBroadPhase.init gOptions).update ceEntities).cellPairSeq
      = [(ce1, ce2), (ce1, ce3), (ce1, ce4), (ce2, ce3), (ce2, ce4), (ce3, ce4)] := by
  unfold SpatialGridBroadPhase.cellPairSeq
  have hcells : ((SpatialGridBroadPhase.init gOptions).update ceEntities).gridCells
      = [((0:ℤ), (0:ℤ))] := gOptions_gridCells
  rw [hcells, List.flatMap_cons, ceGrid_gridContents]
  rfl

theorem ceBox_intersects : aabbIntersects ceBox ceBox = true := by
  unfold aabbIntersects ceBox
  norm_num

/-- C2: `aabbIntersects` returns false exactly when the boxes are strictly
separated on some axis (`a.max.x < b.min.x` or `b.max.x < a.min.x` or
`a.max.y < b.min.y` or `b.max.y < a.min.y`) and true otherwise; in
particular boxes that merely touch along an edge (a shared boundary
coordinate, no strict separation on either axis) are reported as
intersecting — a closed-interval overlap test. -/
theorem aabb_closed_interval_overlap (a b : AABB) :
    (aabbIntersects a b = false ↔
      (a.max.x < b.min.x ∨ b.max.x < a.min.x ∨ a.max.y < b.min.y ∨ b.max.y < a.min.y)) ∧
    (a.max.x = b.min.x → a.min.x ≤ b.max.x → b.min.y ≤ a.max.y → a.min.y ≤ b.max.y →
      aabbIntersects a b = true) := by
  constructor
  · exact aabbIntersects_eq_false_iff a b
  · intro h1 h2 h3 h4
    rw [aabbIntersects_eq_true_iff]
    unfold aabbSeparated
    push_neg
    exact ⟨h1.symm.le, h2, h3, h4⟩

/-- C2 witness: two unit-height boxes touching along the line x = 1 are
reported as intersecting. -/
theorem aabb_closed_interval_overlap_witness :
    ((1:ℚ) = 1 ∧ (0:ℚ) ≤ 2 ∧ (0:ℚ) ≤ 1 ∧ (0:ℚ) ≤ 1) ∧
    aabbIntersects { min := { x := 0, y := 0 }, max := { x := 1, y := 1 } }
      { min := { x := 1, y := 0 }, max := { x := 2, y := 1 } } = true :=
  ⟨⟨rfl, zero_le_two, zero_le_one, zero_le_one⟩,
    (aabb_closed_interval_overlap
      { min := { x := 0, y := 0 }, max := { x := 1, y := 1 } }
      { min := { x := 1, y := 0 }, max := { x := 2, y := 1 } }).2
      rfl zero_le_two zero_le_one zero_le_one⟩

/-- C8: `aabbIntersects` is symmetric in its two arguments. -/
theorem aabb_intersects_symmetric (a b : AABB) :
    aabbIntersects a b = aabbIntersects b a :=
  aabbIntersects_comm_lemma a b

/-- C3: after `update(entities)` followed by a single `queryPairs()`, the
brute-force detector's `collisionTests` equals exactly n*(n-1)/2 for n
entities: each unordered index pair is tested exactly once. -/
theorem brute_force_test_count (bp : BruteForceBroadPhase) (es : List Entity) :
    (((bp.update es).queryPairs).2)._collisionTests = es.length * (es.length - 1) / 2 := by
  show (bruteOuterLoop es).2 = es.length * (es.length - 1) / 2
  have h := bruteOuterLoop_snd es
  omega

/-- C5: for either detector, calling `queryPairs()` twice with no
intervening `update` returns identical pair lists and identical
`collisionTests` values both times: the query reads only the snapshot (or
populated grid), and the counter is reset at the start of each call. -/
theorem requery_idempotent (bp : BruteForceBroadPhase) (g : SpatialGridBroadPhase) :
    ((bp.queryPairs).2.queryPairs).1 = (bp.queryPairs).1 ∧
    ((bp.queryPairs).2.queryPairs).2._collisionTests = (bp.queryPairs).2._collisionTests ∧
    ((g.queryPairs).2.queryPairs).1 = (g.queryPairs).1 ∧
    ((g.queryPairs).2.queryPairs).2._collisionTests = (g.queryPairs).2._collisionTests :=
  ⟨rfl, rfl, rfl, rfl⟩

/-- C6: grid construction with cellSize ≤ 0 fails with the InvalidCellSize
error message; with a positive cellSize but maxX ≤ minX, or maxY ≤ minY,
it fails with the corresponding InvalidBounds error message; construction
succeeds (returns a detector) exactly when the configuration is valid, so
a failed construction yields no detector at all. -/
theorem construction_validation (o : SpatialGridOptions) :
    (o.cellSize ≤ 0 →
      SpatialGridBroadPhase.create o = .error ("cellSize must be greater than 0")) ∧
    (0 < o.cellSize → o.maxX ≤ o.minX.getD 0 →
      SpatialGridBroadPhase.create o = .error ("maxX must be greater than minX")) ∧
    (0 < o.cellSize → o.minX.getD 0 < o.maxX → o.maxY ≤ o.minY.getD 0 →
      SpatialGridBroadPhase.create o = .error ("maxY must be greater than minY")) ∧
    ((∃ g, SpatialGridBroadPhase.create o = .ok g) ↔
      0 < o.cellSize ∧ o.minX.getD 0 < o.maxX ∧ o.minY.getD 0 < o.maxY) := by
  refine ⟨?_, ?_, ?_, ?_⟩
  · intro h
    unfold SpatialGridBroadPhase.create
    rw [if_pos h]
  · intro h1 h2
    unfold SpatialGridBroadPhase.create
    rw [if_neg (not_le.mpr h1), if_pos h2]
  · intro h1 h2 h3
    unfold SpatialGridBroadPhase.create
    rw [if_neg (not_le.mpr h1), if_neg (not_le.mpr h2), if_pos h3]
  · constructor
    · rintro ⟨g, hg⟩
      obtain ⟨-, h1, h2, h3⟩ := create_ok hg
      exact ⟨h1, h2, h3⟩
    · rintro ⟨h1, h2, h3⟩
      refine ⟨SpatialGridBroadPhase.init o, ?_⟩
      unfold SpatialGridBroadPhase.create
      rw [if_neg (not_le.mpr h1), if_neg (not_le.mpr h2), if_neg (not_le.mpr h3)]

/-- C6 witness: concrete misconfigured options produce the corresponding
error messages, and a valid configuration constructs a detector. -/
theorem construction_validation_witness :
    SpatialGridBroadPhase.create ⟨0, none, none, 1, 1⟩ =
      .error ("cellSize must be greater than 0") ∧
    SpatialGridBroadPhase.create ⟨1, none, none, 0, 1⟩ =
      .error ("maxX must be greater than minX") ∧
    SpatialGridBroadPhase.create ⟨1, none, none, 1, 0⟩ =
      .error ("maxY must be greater than minY") ∧
    (∃ g, SpatialGridBroadPhase.create gOptions = .ok g) :=
  ⟨(construction_validation _).1 (le_refl 0),
   (construction_validation _).2.1 zero_lt_one (le_refl 0),
   (construction_validation _).2.2.1 zero_lt_one zero_lt_one (le_refl 0),
   (construction_validation gOptions).2.2.2.mpr ⟨zero_lt_one, zero_lt_one, zero_lt_one⟩⟩

/-- C7: for every valid configuration the grid has
numCols = ceil((maxX-minX)/cellSize) columns and
numRows = ceil((maxY-minY)/cellSize) rows, the coordinate mapping
`worldToGrid` equals the spec's clamp-of-floor formula, and coordinates
outside the configured bounds collapse onto the nearest edge cell (column 0
or numCols-1, row 0 or numRows-1) rather than causing an error. -/
theorem grid_dimensions_and_mapping (o : SpatialGridOptions) (g : SpatialGridBroadPhase)
    (hg : SpatialGridBroadPhase.create o = .ok g) :
    g.numCols = ⌈(g.maxX - g.minX) / g.cellSize⌉ ∧
    g.numRows = ⌈(g.maxY - g.minY) / g.cellSize⌉ ∧
    (∀ x y : ℚ, g.worldToGrid x y =
      specToCell g.cellSize g.minX g.minY g.numCols g.numRows x y) ∧
    (∀ x y : ℚ, x < g.minX → (g.worldToGrid x y).1 = 0) ∧
    (∀ x y : ℚ, g.maxX < x → (g.worldToGrid x y).1 = g.numCols - 1) ∧
    (∀ x y : ℚ, y < g.minY → (g.worldToGrid x y).2 = 0) ∧
    (∀ x y : ℚ, g.maxY < y → (g.worldToGrid x y).2 = g.numRows - 1) := by
  obtain ⟨hgi, hcs, hx, hy⟩ := create_ok hg
  subst hgi
  have hcols := init_numCols_pos hcs hx
  have hrows := init_numRows_pos hcs hy
  have hcs2 : 0 < (SpatialGridBroadPhase.init o).cellSize := hcs
  have hx2 : (SpatialGridBroadPhase.init o).minX < (SpatialGridBroadPhase.init o).maxX := hx
  have hy2 : (SpatialGridBroadPhase.init o).minY < (SpatialGridBroadPhase.init o).maxY := hy
  have hnc : (SpatialGridBroadPhase.init o).numCols =
      ⌈((SpatialGridBroadPhase.init o).maxX - (SpatialGridBroadPhase.init o).minX)
        / (SpatialGridBroadPhase.init o).cellSize⌉ := rfl
  have hnr : (SpatialGridBroadPhase.init o).numRows =
      ⌈((SpatialGridBroadPhase.init o).maxY - (SpatialGridBroadPhase.init o).minY)
        / (SpatialGridBroadPhase.init o).cellSize⌉ := rfl
  refine ⟨hnc, hnr, ?_, ?_, ?_, ?_, ?_⟩
  · intro x y
    unfold SpatialGridBroadPhase.worldToGrid specToCell specClamp
      SpatialGridBroadPhase.colOf SpatialGridBroadPhase.rowOf
    rw [Prod.mk.injEq]
    constructor
    · omega
    · omega
  · intro x y hlt
    show (SpatialGridBroadPhase.init o).colOf x = 0
    have hq : (x - (SpatialGridBroadPhase.init o).minX)
        / (SpatialGridBroadPhase.init o).cellSize < 0 :=
      div_neg_of_neg_of_pos (by linarith) hcs2
    have hfl : ⌊(x - (SpatialGridBroadPhase.init o).minX)
        / (SpatialGridBroadPhase.init o).cellSize⌋ < 0 := by
      rw [Int.floor_lt]
      push_cast
      exact hq
    unfold SpatialGridBroadPhase.colOf
    omega
  · intro x y hgt
    show (SpatialGridBroadPhase.init o).colOf x = (SpatialGridBroadPhase.init o).numCols - 1
    have hvq : ((SpatialGridBroadPhase.init o).maxX - (SpatialGridBroadPhase.init o).minX)
          / (SpatialGridBroadPhase.init o).cellSize
        < (x - (SpatialGridBroadPhase.init o).minX)
          / (SpatialGridBroadPhase.init o).cellSize :=
      (div_lt_div_right hcs2).mpr (by linarith)
    have hfloor : (SpatialGridBroadPhase.init o).numCols - 1
        ≤ ⌊(x - (SpatialGridBroadPhase.init o).minX)
            / (SpatialGridBroadPhase.init o).cellSize⌋ := by
      rw [Int.le_floor, hnc]
      have hceil := Int.ceil_lt_add_one
        (((SpatialGridBroadPhase.init o).maxX - (SpatialGridBroadPhase.init o).minX)
          / (SpatialGridBroadPhase.init o).cellSize)
      push_cast
      linarith
    unfold SpatialGridBroadPhase.colOf
    omega
  · intro x y hlt
    show (SpatialGridBroadPhase.init o).rowOf y = 0
    have hq : (y - (SpatialGridBroadPhase.init o).minY)
        / (SpatialGridBroadPhase.init o).cellSize < 0 :=
      div_neg_of_neg_of_pos (by linarith) hcs2
    have hfl : ⌊(y - (SpatialGridBroadPhase.init o).minY)
        / (SpatialGridBroadPhase.init o).cellSize⌋ < 0 := by
      rw [Int.floor_lt]
      push_cast
      exact hq
    unfold SpatialGridBroadPhase.rowOf
    omega
  · intro x y hgt
    show (SpatialGridBroadPhase.init o).rowOf y = (SpatialGridBroadPhase.init o).numRows - 1
    have hvq : ((SpatialGridBroadPhase.init o).maxY - (SpatialGridBroadPhase.init o).minY)
          / (SpatialGridBroadPhase.init o).cellSize
        < (y - (SpatialGridBroadPhase.init o).minY)
          / (SpatialGridBroadPhase.init o).cellSize :=
      (div_lt_div_right hcs2).mpr (by linarith)
    have hfloor : (SpatialGridBroadPhase.init o).numRows - 1
        ≤ ⌊(y - (SpatialGridBroadPhase.init o).minY)
            / (SpatialGridBroadPhase.init o).cellSize⌋ := by
      rw [Int.le_floor, hnr]
      have hceil := Int.ceil_lt_add_one
        (((SpatialGridBroadPhase.init o).maxY - (SpatialGridBroadPhase.init o).minY)
          / (SpatialGridBroadPhase.init o).cellSize)
      push_cast
      linarith
    unfold SpatialGridBroadPhase.rowOf
    omega

/-- C7 witness: the theorem applied to the unit-square configuration. -/
theorem grid_dimensions_and_mapping_witness :
    SpatialGridBroadPhase.create gOptions = .ok (SpatialGridBroadPhase.init gOptions) ∧
    (SpatialGridBroadPhase.init gOptions).numCols =
      ⌈((SpatialGridBroadPhase.init gOptions).maxX - (SpatialGridBroadPhase.init gOptions).minX)
        / (SpatialGridBroadPhase.init gOptions).cellSize⌉ ∧
    (∀ x y : ℚ, (SpatialGridBroadPhase.init gOptions).worldToGrid x y =
      specToCell (SpatialGridBroadPhase.init gOptions).cellSize
        (SpatialGridBroadPhase.init gOptions).minX (SpatialGridBroadPhase.init gOptions).minY
        (SpatialGridBroadPhase.init gOptions).numCols (SpatialGridBroadPhase.init gOptions).numRows
        x y) :=
  ⟨gOptions_create,
   (grid_dimensions_and_mapping gOptions _ gOptions_create).1,
   (grid_dimensions_and_mapping gOptions _ gOptions_create).2.2.1⟩

/-- C9: on a freshly constructed detector, before any `update`, a
`queryPairs()` call returns the empty pair list and leaves
`collisionTests` at 0, for the brute-force detector and for any validly
constructed grid detector. -/
theorem fresh_query_empty (o : SpatialGridOptions) (g : SpatialGridBroadPhase)
    (hg : SpatialGridBroadPhase.create o = .ok g) :
    (BruteForceBroadPhase.new.queryPairs).1 = [] ∧
    (BruteForceBroadPhase.new.queryPairs).2._collisionTests = 0 ∧
    (g.queryPairs).1 = [] ∧ (g.queryPairs).2._collisionTests = 0 := by
  obtain ⟨hgi, -, -, -⟩ := create_ok hg
  subst hgi
  have hseq : (SpatialGridBroadPhase.init o).cellPairSeq = [] := by
    unfold SpatialGridBroadPhase.cellPairSeq
    have h : (fun c => pairsWithin ((SpatialGridBroadPhase.init o).grid c))
        = fun _ => ([] : List (Entity × Entity)) := rfl
    rw [h, flatMap_const_nil]
  refine ⟨rfl, rfl, ?_, ?_⟩
  · show (gridQueryLoop (SpatialGridBroadPhase.init o).cellPairSeq []).1 = []
    rw [hseq]
    rfl
  · show (gridQueryLoop (SpatialGridBroadPhase.init o).cellPairSeq []).2 = 0
    rw [hseq]
    rfl

/-- C9 witness: the theorem applied to the unit-square configuration. -/
theorem fresh_query_empty_witness :
    SpatialGridBroadPhase.create gOptions = .ok (SpatialGridBroadPhase.init gOptions) ∧
    ((SpatialGridBroadPhase.init gOptions).queryPairs).1 = [] ∧
    ((SpatialGridBroadPhase.init gOptions).queryPairs).2._collisionTests = 0 :=
  ⟨gOptions_create,
   (fresh_query_empty gOptions _ gOptions_create).2.2.1,
   (fresh_query_empty gOptions _ gOptions_create).2.2.2⟩

/-- C10: for every validly constructed grid, numCols ≥ 1 and numRows ≥ 1;
`worldToGrid` always returns indices with 0 ≤ col ≤ numCols-1 and
0 ≤ row ≤ numRows-1; every cell that `update` inserts an entity into is
inside the allocated numCols × numRows grid; and every cell visited by
`queryPairs` is inside the grid. -/
theorem grid_access_safety (o : SpatialGridOptions) (g : SpatialGridBroadPhase)
    (hg : SpatialGridBroadPhase.create o = .ok g) :
    1 ≤ g.numCols ∧ 1 ≤ g.numRows ∧
    (∀ x y : ℚ, 0 ≤ (g.worldToGrid x y).1 ∧ (g.worldToGrid x y).1 ≤ g.numCols - 1 ∧
      0 ≤ (g.worldToGrid x y).2 ∧ (g.worldToGrid x y).2 ≤ g.numRows - 1) ∧
    (∀ (e : Entity) (c : ℤ × ℤ), g.entityCoversCell e c = true →
      0 ≤ c.1 ∧ c.1 < g.numCols ∧ 0 ≤ c.2 ∧ c.2 < g.numRows) ∧
    (∀ (es : List Entity), ∀ c ∈ (g.update es).gridCells,
      0 ≤ c.1 ∧ c.1 < g.numCols ∧ 0 ≤ c.2 ∧ c.2 < g.numRows) := by
  obtain ⟨hgi, hcs, hx, hy⟩ := create_ok hg
  subst hgi
  have hcols := init_numCols_pos hcs hx
  have hrows := init_numRows_pos hcs hy
  refine ⟨hcols, hrows, ?_, ?_, ?_⟩
  · intro x y
    exact ⟨colOf_nonneg _ x, colOf_le _ (by omega) x,
      rowOf_nonneg _ y, rowOf_le _ (by omega) y⟩
  · intro e c hcov
    rw [entityCoversCell_iff] at hcov
    obtain ⟨h1, h2, h3, h4⟩ := hcov
    have ha := colOf_nonneg (SpatialGridBroadPhase.init o) e.aabb.min.x
    have hb := colOf_le (SpatialGridBroadPhase.init o) (by omega) e.aabb.max.x
    have hc2 := rowOf_nonneg (SpatialGridBroadPhase.init o) e.aabb.min.y
    have hd2 := rowOf_le (SpatialGridBroadPhase.init o) (by omega) e.aabb.max.y
    omega
  · intro es c hc
    have hc2 : c ∈ (SpatialGridBroadPhase.init o).gridCells := hc
    exact mem_gridCells.mp hc2

/-- C10 witness: the theorem applied to the unit-square configuration. -/
theorem grid_access_safety_witness :
    SpatialGridBroadPhase.create gOptions = .ok (SpatialGridBroadPhase.init gOptions) ∧
    1 ≤ (SpatialGridBroadPhase.init gOptions).numCols ∧
    (∀ x y : ℚ, 0 ≤ ((SpatialGridBroadPhase.init gOptions).worldToGrid x y).1 ∧
      ((SpatialGridBroadPhase.init gOptions).worldToGrid x y).1 ≤
        (SpatialGridBroadPhase.init gOptions).numCols - 1 ∧
      0 ≤ ((SpatialGridBroadPhase.init gOptions).worldToGrid x y).2 ∧
      ((SpatialGridBroadPhase.init gOptions).worldToGrid x y).2 ≤
        (SpatialGridBroadPhase.init gOptions).numRows - 1) :=
  ⟨gOptions_create,
   (grid_access_safety gOptions _ gOptions_create).1,
   (grid_access_safety gOptions _ gOptions_create).2.2.1⟩

/-- C4: for a snapshot with unique entity ids, neither detector emits the
same unordered id pair more than once in a single `queryPairs()` call —
for the grid detector this holds for any grid state, however many cells
the two entities of a pair share, because the checked-pair cache blocks
every later key-equal pair. -/
theorem no_duplicate_pairs (bp : BruteForceBroadPhase) (g : SpatialGridBroadPhase)
    (es : List Entity) (huniq : (es.map Entity.id).Nodup) :
    ((bp.update es).queryPairs).1.Pairwise (fun p q => ¬ sameIdPair p q) ∧
    ((g.update es).queryPairs).1.Pairwise (fun p q => ¬ sameIdPair p q) :=
  ⟨brute_pairs_pairwise huniq, gridQueryLoop_pairwise _ _⟩

/-- C4 witness: the theorem applied to a two-entity snapshot with ids 1
and 2. -/
theorem no_duplicate_pairs_witness :
    (wEntities.map Entity.id).Nodup ∧
    ((BruteForceBroadPhase.new.update wEntities).queryPairs).1.Pairwise
      (fun p q => ¬ sameIdPair p q) ∧
    (((SpatialGridBroadPhase.init gOptions).update wEntities).queryPairs).1.Pairwise
      (fun p q => ¬ sameIdPair p q) :=
  ⟨by decide,
   (no_duplicate_pairs BruteForceBroadPhase.new (SpatialGridBroadPhase.init gOptions)
     wEntities (by decide)).1,
   (no_duplicate_pairs BruteForceBroadPhase.new (SpatialGridBroadPhase.init gOptions)
     wEntities (by decide)).2⟩

/-- C1 (amended): for any snapshot of well-formed entities (min ≤ max on
both axes, the §3 data-model invariant) with unique ids none of which
contains the dedup-key separator character (in particular, any snapshot
with numeric ids), and any validly constructed grid, the set of unordered
id pairs returned by the brute-force detector equals the set returned by
the grid detector after both receive the same `update(entities)` call.
Without the separator-free restriction the claim is false: see the
counterexample, where two distinct id pairs produce the same cache key and
the grid detector drops a pair. -/
theorem cross_strategy_equivalence (o : SpatialGridOptions) (g : SpatialGridBroadPhase)
    (hg : SpatialGridBroadPhase.create o = .ok g)
    (bp : BruteForceBroadPhase) (es : List Entity)
    (huniq : (es.map Entity.id).Nodup)
    (hsep : ∀ e ∈ es, sepFree e.id)
    (hwf : ∀ e ∈ es, wellFormed e.aabb)
    (i j : String) :
    (∃ p ∈ ((bp.update es).queryPairs).1, sameIds p i j) ↔
      (∃ q ∈ ((g.update es).queryPairs).1, sameIds q i j) := by
  obtain ⟨hgi, hcs, hx, hy⟩ := create_ok hg
  subst hgi
  have hcs2 : 0 < (SpatialGridBroadPhase.init o).cellSize := hcs
  have hcols := init_numCols_pos hcs hx
  have hrows := init_numRows_pos hcs hy
  have hid : ∀ e1 ∈ es, ∀ e2 ∈ es, Entity.id e1 = Entity.id e2 → e1 = e2 :=
    fun e1 h1 e2 h2 heq => List.inj_on_of_nodup_map huniq h1 h2 heq
  constructor
  · rintro ⟨p, hp, hids⟩
    rw [mem_brute_pairs] at hp
    obtain ⟨hsub, hint⟩ := hp
    have hm1 : p.1 ∈ es := hsub.mem (by simp)
    have hm2 : p.2 ∈ es := hsub.mem (by simp)
    obtain ⟨c, hcov1, hcov2, hcell⟩ :=
      exists_shared_cell (SpatialGridBroadPhase.init o) hcs2 hcols hrows
        (hwf p.1 hm1) (hwf p.2 hm2) hint
    have hpair : (p.1, p.2) ∈ ((SpatialGridBroadPhase.init o).update es).cellPairSeq := by
      rw [mem_cellPairSeq]
      refine ⟨c, hcell, ?_⟩
      rw [mem_pairsWithin, update_grid_eq, sublist_pair_filter_iff]
      exact ⟨hsub, hcov1, hcov2⟩
    have hsepL : ∀ r ∈ ((SpatialGridBroadPhase.init o).update es).cellPairSeq,
        sepFree r.1.id ∧ sepFree r.2.id := by
      intro r hr
      have hparts := mem_cellPairSeq_parts hr
      exact ⟨hsep r.1 hparts.1, hsep r.2 hparts.2⟩
    have hres : ∀ r ∈ ((SpatialGridBroadPhase.init o).update es).cellPairSeq,
        (r.1.id = (p.1, p.2).1.id → r.1 = (p.1, p.2).1) ∧
        (r.2.id = (p.1, p.2).1.id → r.2 = (p.1, p.2).1) ∧
        (r.1.id = (p.1, p.2).2.id → r.1 = (p.1, p.2).2) ∧
        (r.2.id = (p.1, p.2).2.id → r.2 = (p.1, p.2).2) := by
      intro r hr
      have hparts := mem_cellPairSeq_parts hr
      exact ⟨fun h => hid r.1 hparts.1 p.1 hm1 h, fun h => hid r.2 hparts.2 p.1 hm1 h,
        fun h => hid r.1 hparts.1 p.2 hm2 h, fun h => hid r.2 hparts.2 p.2 hm2 h⟩
    obtain ⟨q, hq, hqs⟩ := gridQueryLoop_complete hsepL (hsep p.1 hm1) (hsep p.2 hm2)
      hres hpair hint (List.not_mem_nil _) (List.not_mem_nil _)
    refine ⟨q, hq, ?_⟩
    rcases hqs with ⟨e1, e2⟩ | ⟨e1, e2⟩ <;> rcases hids with ⟨f1, f2⟩ | ⟨f1, f2⟩
    · exact Or.inl ⟨e1.trans f1, e2.trans f2⟩
    · exact Or.inr ⟨e1.trans f1, e2.trans f2⟩
    · exact Or.inr ⟨e1.trans f2, e2.trans f1⟩
    · exact Or.inl ⟨e1.trans f2, e2.trans f1⟩
  · rintro ⟨q, hq, hids⟩
    obtain ⟨hsub, hint⟩ := grid_pairs_subset hq
    exact ⟨q, mem_brute_pairs.mpr ⟨hsub, hint⟩, hids⟩

/-- C1 witness: the amended theorem applied to a two-entity snapshot with
ids 1 and 2 on the unit-square grid. -/
theorem cross_strategy_equivalence_witness :
    ((wEntities.map Entity.id).Nodup ∧ (∀ e ∈ wEntities, sepFree e.id) ∧
      (∀ e ∈ wEntities, wellFormed e.aabb)) ∧
    ((∃ p ∈ ((BruteForceBroadPhase.new.update wEntities).queryPairs).1,
        sameIds p ("1") ("2")) ↔
      (∃ q ∈ (((SpatialGridBroadPhase.init gOptions).update wEntities).queryPairs).1,
        sameIds q ("1") ("2"))) :=
  ⟨⟨by decide, by decide, by
      intro e he
      rcases List.mem_cons.mp he with rfl | he2
      · exact ⟨zero_le_one, zero_le_one⟩
      · rcases List.mem_cons.mp he2 with rfl | he3
        · exact ⟨le_refl 1, le_refl 1⟩
        · exact absurd he3 (List.not_mem_nil e)⟩,
   cross_strategy_equivalence gOptions _ gOptions_create BruteForceBroadPhase.new wEntities
     (by decide) (by decide)
     (by
       intro e he
       rcases List.mem_cons.mp he with rfl | he2
       · exact ⟨zero_le_one, zero_le_one⟩
       · rcases List.mem_cons.mp he2 with rfl | he3
         · exact ⟨le_refl 1, le_refl 1⟩
         · exact absurd he3 (List.not_mem_nil e))
     ("1") ("2")⟩

/-- C1 counterexample: the claim as stated (unique ids and a valid grid
configuration suffice) is false.  The four entities of `ceEntities` have
pairwise distinct string ids and identical well-formed boxes, all in one
cell of the validly constructed unit-square grid; the dedup keys of the
pairs (ce1, ce2) and (ce3, ce4) are both the string `1:2:3`, so the grid
detector skips the pair (ce3, ce4) that the brute-force detector reports:
the id pair (1:2, 3) is in the brute-force result set but not in the grid
result set. -/
theorem cross_strategy_equivalence_ce :
    SpatialGridBroadPhase.create gOptions = .ok (SpatialGridBroadPhase.init gOptions) ∧
    (ceEntities.map Entity.id).Nodup ∧
    (∀ e ∈ ceEntities, wellFormed e.aabb) ∧
    (∃ p ∈ ((BruteForceBroadPhase.new.update ceEntities).queryPairs).1,
      sameIds p ("1:2") ("3")) ∧
    ¬ (∃ q ∈ (((SpatialGridBroadPhase.init gOptions).update ceEntities).queryPairs).1,
      sameIds q ("1:2") ("3")) := by
  refine ⟨gOptions_create, by decide, ?_, ?_, ?_⟩
  · intro e he
    have h4 : e = ce1 ∨ e = ce2 ∨ e = ce3 ∨ e = ce4 := by
      simpa [ceEntities] using he
    rcases h4 with rfl | rfl | rfl | rfl <;> exact ⟨le_refl 0, le_refl 0⟩
  · refine ⟨(ce3, ce4), ?_, Or.inl ⟨rfl, rfl⟩⟩
    rw [mem_brute_pairs]
    constructor
    · show List.Sublist [ce3, ce4] ceEntities
      exact .cons ce1 (.cons ce2 (.cons₂ ce3 (.cons₂ ce4 .slnil)))
    · exact ceBox_intersects
  · rintro ⟨q, hq, hids⟩
    have hq2 : q ∈ (gridQueryLoop
        (((SpatialGridBroadPhase.init gOptions).update ceEntities).cellPairSeq) []).1 := hq
    rw [ceGrid_cellPairSeq] at hq2
    rw [gridQueryLoop] at hq2
    rw [if_neg (by decide)] at hq2
    rw [if_pos (show aabbIntersects (ce1, ce2).1.aabb (ce1, ce2).2.aabb = true
        from ceBox_intersects)] at hq2
    rcases List.mem_append.mp hq2 with hq3 | hq3
    · rw [List.mem_singleton] at hq3
      subst hq3
      exact absurd hids (by decide)
    · have hnc := gridQueryLoop_keys_not_cached hq3
      obtain ⟨hqmem, -⟩ := gridQueryLoop_sound hq3
      simp only [List.mem_cons, List.mem_singleton, List.not_mem_nil, or_false] at hqmem
      rcases hqmem with rfl | rfl | rfl | rfl | rfl
      · exact absurd hids (by decide)
      · exact absurd hids (by decide)
      · exact absurd hids (by decide)
      · exact absurd hids (by decide)
      · refine hnc.1 ?_
        rw [show pairKey (ce3, ce4).1 (ce3, ce4).2 = pairKey (ce1, ce2).1 (ce1, ce2).2
          from by decide]
        exact List.mem_cons_self _ _
